import Mathlib

/-!
# Verification of the Andina BI dashboard pipeline (`appBI.py`)

Shallow embedding of the data-preparation and aggregation pipeline of the
business-intelligence dashboard: tables are lists of row structures, nullable
CSV cells are `Option` values (pandas `NaN`/`NaT` is `none`), monetary and
quantity columns are exact integers.  The cleaning, enrichment, filtering and
aggregation operations are translated from the source; theorems settle the
specification's claims about them.
-/

set_option maxHeartbeats 1000000

namespace AppBI

/-- A calendar date, as carried by a pandas `Timestamp` (`parse_dates` columns).
pandas timestamps always have a four-digit year (range 1677..2262). -/

structure Date where
  year : Nat
  month : Nat
  day : Nat
deriving DecidableEq, Repr

/-- `a <= b` on dates, as pandas compares timestamps (lexicographic on
year, month, day). -/

def dateLe (a b : Date) : Bool :=
  decide (a.year < b.year) ||
    (decide (a.year = b.year) &&
      (decide (a.month < b.month) ||
        (decide (a.month = b.month) && decide (a.day ≤ b.day))))

/-- Row of `clientes_andina.csv` (columns used by the pipeline). -/

structure Cliente where
  cliente_id : Option Int
  nombre_cliente : Option String
  segmento : Option String
  region : Option String
  ciudad : Option String
  fecha_alta : Option Date
deriving DecidableEq, Repr

/-- Row of `productos_andina.csv` (columns used by the pipeline). -/

structure Producto where
  producto_id : Option Int
  sku : Option String
  categoria : Option String
  subcategoria : Option String
  marca : Option String
  descripcion : Option String
deriving DecidableEq, Repr

/-- Row of `ventas_andina.csv` (columns used by the pipeline). -/

structure Venta where
  venta_id : Option Int
  fecha : Option Date
  cliente_id : Option Int
  producto_id : Option Int
  cantidad : Option Int
  subtotal_cop : Option Int
  margen_total_cop : Option Int
deriving DecidableEq, Repr

/-- Row of `cartera_andina.csv` (columns used by the pipeline). -/

structure Cartera where
  documento_id : Option Int
  cliente_id : Option Int
  fecha_factura : Option Date
  fecha_vencimiento : Option Date
  saldo_cop : Option Int
  estado : Option String
deriving DecidableEq, Repr

/-! ## Deduplication (`DataFrame.drop_duplicates(subset=[key])`)

Keeps the first row of every key value, in input order; pandas treats `NaN`
keys as equal to each other, which `DecidableEq (Option _)` reproduces. -/

/-- Worker for `dedupBy`: `seen` is the set of key values already emitted. -/

def dedupByAux {α β : Type} (key : α → β) [DecidableEq β] :
    List β → List α → List α
  | _, [] => []
  | seen, x :: xs =>
    if key x ∈ seen then dedupByAux key seen xs
    else x :: dedupByAux key (key x :: seen) xs

/-- `drop_duplicates(subset=[key])`: keep the first occurrence of each key. -/

def dedupBy {α β : Type} (key : α → β) [DecidableEq β] (l : List α) : List α :=
  dedupByAux key [] l

/-! ## Cleaning (`load_data`, lines 21-24)

`clientes`/`productos`: `drop_duplicates(subset=[key]).dropna(subset=[key])`;
`ventas`/`cartera`: `dropna(subset=keys)` only — no deduplication. -/

/-- Line 21: `clientes.drop_duplicates(subset=["cliente_id"]).dropna(subset=["cliente_id"])`. -/

def cleanClientes (cs : List Cliente) : List Cliente :=
  (dedupBy (fun c => c.cliente_id) cs).filter (fun c => c.cliente_id.isSome)

/-- Line 22: `productos.drop_duplicates(subset=["producto_id"]).dropna(subset=["producto_id"])`. -/

def cleanProductos (ps : List Producto) : List Producto :=
  (dedupBy (fun p => p.producto_id) ps).filter (fun p => p.producto_id.isSome)

/-- The sale key columns of line 23 are all non-null. -/

def ventaKeyOk (v : Venta) : Bool :=
  v.venta_id.isSome && v.fecha.isSome && v.cliente_id.isSome &&
    v.producto_id.isSome

/-- Line 23: `ventas.dropna(subset=["venta_id", "fecha", "cliente_id", "producto_id"])`.
The integer coercion of lines 27-28 is the identity here: identifiers are
already `Option Int` and hold values after `dropna`. -/

def cleanVentas (vs : List Venta) : List Venta :=
  vs.filter ventaKeyOk

/-- The receivable key columns of line 24 are all non-null. -/

def carteraKeyOk (r : Cartera) : Bool :=
  r.documento_id.isSome && r.cliente_id.isSome && r.fecha_factura.isSome

/-- Line 24: `cartera.dropna(subset=["documento_id", "cliente_id", "fecha_factura"])`. -/

def cleanCartera (rs : List Cartera) : List Cartera :=
  rs.filter carteraKeyOk

/-! ## Derived calendar fields (`load_data`, lines 38-39)

`ventas_ext["anio"] = ventas_ext["fecha"].dt.year` and
`ventas_ext["mes"] = ventas_ext["fecha"].dt.to_period("M").astype(str)`.
For every pandas-representable timestamp (year 1677..2262) the period string
is the zero-padded four-digit year, a dash, and the zero-padded two-digit
month; `pad4`/`pad2` spell out those digit windows. -/

/-- The four decimal digits of a year below 10000, most significant first. -/

def pad4 (n : Nat) : List Char :=
  [Nat.digitChar (n / 1000 % 10), Nat.digitChar (n / 100 % 10),
    Nat.digitChar (n / 10 % 10), Nat.digitChar (n % 10)]

/-- The two decimal digits of a month, most significant first. -/

def pad2 (n : Nat) : List Char :=
  [Nat.digitChar (n / 10 % 10), Nat.digitChar (n % 10)]

/-- `str(fecha.to_period("M"))`: the "YYYY-MM" month bucket of a date. -/

def mesOf (d : Date) : String :=
  ⟨pad4 d.year ++ '-' :: pad2 d.month⟩

/-- Row of the denormalized `ventas_ext` table (lines 31-39): the sale columns,
the projected customer and product attributes, and the derived fields. -/

structure VentaExt where
  venta_id : Option Int
  fecha : Option Date
  cliente_id : Option Int
  producto_id : Option Int
  cantidad : Option Int
  subtotal_cop : Option Int
  margen_total_cop : Option Int
  nombre_cliente : Option String
  segmento : Option String
  region : Option String
  ciudad : Option String
  sku : Option String
  categoria : Option String
  subcategoria : Option String
  marca : Option String
  descripcion : Option String
  anio : Option Int
  mes : Option String
deriving DecidableEq, Repr

/-! ## Enrichment (`load_data`, lines 31-39)

`ventas.merge(clientes[...], on="cliente_id", how="left").merge(productos[...],
on="producto_id", how="left")`: each sale row pairs with every matching
dimension row, or with a single all-null dimension row when no key matches. -/

/-- The customer rows a sale joins with under `how="left"`: all rows whose
`cliente_id` equals the sale's, or a single null row when none match. -/

def matchClientes (cs : List Cliente) (v : Venta) : List (Option Cliente) :=
  let ms := cs.filter (fun c => decide (c.cliente_id = v.cliente_id))
  if ms.isEmpty then [none] else ms.map some

/-- The product rows a sale joins with under `how="left"`. -/

def matchProductos (ps : List Producto) (v : Venta) : List (Option Producto) :=
  let ms := ps.filter (fun p => decide (p.producto_id = v.producto_id))
  if ms.isEmpty then [none] else ms.map some

/-- Build one `ventas_ext` row from a sale and its (possibly absent) joined
customer and product rows, including the derived fields of lines 38-39. -/

def mkVentaExt (v : Venta) (oc : Option Cliente) (op : Option Producto) :
    VentaExt where
  venta_id := v.venta_id
  fecha := v.fecha
  cliente_id := v.cliente_id
  producto_id := v.producto_id
  cantidad := v.cantidad
  subtotal_cop := v.subtotal_cop
  margen_total_cop := v.margen_total_cop
  nombre_cliente := oc.bind (fun c => c.nombre_cliente)
  segmento := oc.bind (fun c => c.segmento)
  region := oc.bind (fun c => c.region)
  ciudad := oc.bind (fun c => c.ciudad)
  sku := op.bind (fun p => p.sku)
  categoria := op.bind (fun p => p.categoria)
  subcategoria := op.bind (fun p => p.subcategoria)
  marca := op.bind (fun p => p.marca)
  descripcion := op.bind (fun p => p.descripcion)
  anio := v.fecha.map (fun d => (d.year : Int))
  mes := v.fecha.map mesOf

/-- All `ventas_ext` rows produced by one sale row: the two left joins fan out
over the matching customer rows and then the matching product rows. -/

def enrichRow (cs : List Cliente) (ps : List Producto) (v : Venta) :
    List VentaExt :=
  (matchClientes cs v).flatMap
    (fun oc => (matchProductos ps v).map (fun op => mkVentaExt v oc op))

/-- Lines 31-39: the full `ventas_ext` table. -/

def enrich (vs : List Venta) (cs : List Cliente) (ps : List Producto) :
    List VentaExt :=
  vs.flatMap (enrichRow cs ps)

/-- The sale columns of a `ventas_ext` row. -/

def ventaOf (e : VentaExt) : Venta :=
  ⟨e.venta_id, e.fecha, e.cliente_id, e.producto_id, e.cantidad,
    e.subtotal_cop, e.margen_total_cop⟩

/-! ## Filter engine (`main`, lines 117-127)

`mask = (fecha >= desde) & (fecha <= hasta)`, then `mask &= region == sel`
unless the selector is the sentinel `"Todos"`, likewise for the segment;
`ventas_f = ventas_ext[mask]`.  A `NaT` date compares `False` on both ends. -/

/-- Lines 117-120: the date-range part of the mask. -/

def maskFecha (ds hs : Date) (v : VentaExt) : Bool :=
  match v.fecha with
  | some d => dateLe ds d && dateLe d hs
  | none => false

/-- Lines 117-126: the full inclusion mask for one row. -/

def maskRow (ds hs : Date) (rSel sSel : String) (v : VentaExt) : Bool :=
  maskFecha ds hs v &&
    (if rSel = "Todos" then true else decide (v.region = some rSel)) &&
    (if sSel = "Todos" then true else decide (v.segmento = some sSel))

/-- Line 127: `ventas_f = ventas_ext[mask]`. -/

def filtrar (ds hs : Date) (rSel sSel : String) (vs : List VentaExt) :
    List VentaExt :=
  vs.filter (maskRow ds hs rSel sSel)

/-! ## Aggregator

pandas `groupby` with default `dropna=True` discards rows whose group key is
null; with default `sort=True` it orders groups by key, but every aggregate
below is either re-sorted explicitly or covered by claims that do not depend
on group order, so groups are produced in first-occurrence order here.
`Series.sum` skips nulls (`skipna=True`) and returns 0 on empty input. -/

/-- The distinct non-null group keys of a table, first occurrence first. -/

def groupKeys {α κ : Type} [DecidableEq κ] (key : α → Option κ)
    (xs : List α) : List κ :=
  dedupBy id (xs.filterMap key)

/-- The null-skipping sum of `val` over the rows of one group. -/

def groupSum {α κ : Type} [DecidableEq κ] (key : α → Option κ)
    (val : α → Option Int) (xs : List α) (k : κ) : Int :=
  ((xs.filter (fun x => decide (key x = some k))).filterMap val).sum

/-- `groupby(key)[val].sum()`: one `(key, sum)` row per non-null key. -/

def groupbySum {α κ : Type} [DecidableEq κ] (key : α → Option κ)
    (val : α → Option Int) (xs : List α) : List (κ × Int) :=
  (groupKeys key xs).map (fun k => (k, groupSum key val xs k))

/-- Lines 188-193: `ventas_f.groupby("mes")[["subtotal_cop",
"margen_total_cop"]].sum().sort_values("mes")` — the monthly series, one
`(mes, subtotal, margen)` row per month, ascending by the month string. -/

def ventasMes (vs : List VentaExt) : List (String × Int × Int) :=
  (List.insertionSort (fun a b => a ≤ b) (groupKeys (fun v => v.mes) vs)).map
    (fun m => (m, groupSum (fun v => v.mes) (fun v => v.subtotal_cop) vs m,
      groupSum (fun v => v.mes) (fun v => v.margen_total_cop) vs m))

/-- Lines 212-216: `ventas_f.groupby(["region", "segmento"])["subtotal_cop"].sum()`. -/

def ventasRegion (vs : List VentaExt) : List ((String × String) × Int) :=
  groupbySum
    (fun v => match v.region, v.segmento with
      | some r, some s => some (r, s)
      | _, _ => none)
    (fun v => v.subtotal_cop) vs

/-- Lines 225-229: `ventas_f.groupby(["region", "ciudad"])["subtotal_cop"].sum()`. -/

def ventasCiudad (vs : List VentaExt) : List ((String × String) × Int) :=
  groupbySum
    (fun v => match v.region, v.ciudad with
      | some r, some c => some (r, c)
      | _, _ => none)
    (fun v => v.subtotal_cop) vs

/-- Descending order on the summed metric, the sort key of
`sort_values("subtotal_cop", ascending=False)`. -/

def ordDesc {κ : Type} (a b : κ × Int) : Prop := b.2 ≤ a.2

instance {κ : Type} : DecidableRel (@ordDesc κ) :=
  fun a b => inferInstanceAs (Decidable (b.2 ≤ a.2))

instance {κ : Type} : IsTotal (κ × Int) ordDesc :=
  ⟨fun a b => le_total b.2 a.2⟩

instance {κ : Type} : IsTrans (κ × Int) ordDesc :=
  ⟨fun _ _ _ h1 h2 => le_trans h2 h1⟩

/-- `sort_values(ascending=False).head(n)` applied to a grouped sum. -/

def topNBy {κ : Type} (n : Nat) (xs : List (κ × Int)) : List (κ × Int) :=
  (List.insertionSort ordDesc xs).take n

/-- Lines 241-247: top customers, grouped by `(cliente_id, nombre_cliente)`,
summed `subtotal_cop`, sorted descending, truncated to 15 rows. -/

def topClientes (vs : List VentaExt) : List ((Int × String) × Int) :=
  topNBy 15 (groupbySum
    (fun v => match v.cliente_id, v.nombre_cliente with
      | some i, some n => some (i, n)
      | _, _ => none)
    (fun v => v.subtotal_cop) vs)

/-- Lines 258-264: top products, grouped by `(producto_id, sku, descripcion)`. -/

def topProductos (vs : List VentaExt) : List ((Int × String × String) × Int) :=
  topNBy 15 (groupbySum
    (fun v => match v.producto_id, v.sku, v.descripcion with
      | some i, some s, some d => some (i, s, d)
      | _, _, _ => none)
    (fun v => v.subtotal_cop) vs)

/-- Line 130: `ventas_f["subtotal_cop"].sum()`. -/

def kpiTotalVentas (vs : List VentaExt) : Int :=
  (vs.filterMap (fun v => v.subtotal_cop)).sum

/-- Line 131: `ventas_f["margen_total_cop"].sum()`. -/

def kpiMargenTotal (vs : List VentaExt) : Int :=
  (vs.filterMap (fun v => v.margen_total_cop)).sum

/-- Line 132: `ventas_f["cantidad"].sum()`. -/

def kpiUnidades (vs : List VentaExt) : Int :=
  (vs.filterMap (fun v => v.cantidad)).sum

/-- Line 135: `cartera[cartera["estado"] == "Vigente"]["saldo_cop"].sum()`. -/

def kpiCarteraVigente (rs : List Cartera) : Int :=
  ((rs.filter (fun r => decide (r.estado = some "Vigente"))).filterMap
    (fun r => r.saldo_cop)).sum

/-- Line 136: `cartera[cartera["estado"] == "En mora"]["saldo_cop"].sum()`. -/

def kpiCarteraMora (rs : List Cartera) : Int :=
  ((rs.filter (fun r => decide (r.estado = some "En mora"))).filterMap
    (fun r => r.saldo_cop)).sum

/-- The headline metrics of lines 130-136. -/

structure KPIs where
  totalVentas : Int
  margenTotal : Int
  totalUnidades : Int
  carteraVigente : Int
  carteraMora : Int
deriving DecidableEq, Repr

/-- Lines 117-136 as one function of the cached tables and the filter
selection: the sales KPIs come from the filtered view, the receivables KPIs
from the unfiltered `cartera` table. -/

def dashboardKPIs (ventasExt : List VentaExt) (cartera : List Cartera)
    (ds hs : Date) (rSel sSel : String) : KPIs :=
  let f := filtrar ds hs rSel sSel ventasExt
  { totalVentas := kpiTotalVentas f
    margenTotal := kpiMargenTotal f
    totalUnidades := kpiUnidades f
    carteraVigente := kpiCarteraVigente cartera
    carteraMora := kpiCarteraMora cartera }

/-! ## Concrete rows used as evaluation witnesses -/

/-- A sale row with all key columns present. -/
def vSale : Venta :=
  { venta_id := some 1, fecha := some ⟨2024, 1, 15⟩, cliente_id := some 10,
    producto_id := some 100, cantidad := some 2, subtotal_cop := some 200,
    margen_total_cop := some 50 }

/-- A customer row whose key does not match `vSale`. -/
def cOther : Cliente :=
  { cliente_id := some 20, nombre_cliente := some "Ana",
    segmento := some "Retail", region := some "Norte",
    ciudad := some "Bogota", fecha_alta := none }

/-- A product row matching `vSale`. -/
def pMatch : Producto :=
  { producto_id := some 100, sku := some "SKU-100", categoria := some "Cat",
    subcategoria := some "Sub", marca := some "Marca",
    descripcion := some "Producto cien" }

/-- An enriched row built from the concrete sale. -/
def eSale : VentaExt := mkVentaExt vSale none (some pMatch)

/-- An enriched row whose region is literally the sentinel string. -/
def eTodos : VentaExt :=
  { eSale with region := some "Todos", segmento := some "Mayorista" }

/-- An enriched row with an ordinary region. -/
def eNorte : VentaExt :=
  { eSale with region := some "Norte", segmento := some "Retail" }

/-! ## Theorems -/

theorem dateLe_iff (a b : Date) :
    dateLe a b = true ↔
      a.year < b.year ∨
        (a.year = b.year ∧
          (a.month < b.month ∨ (a.month = b.month ∧ a.day ≤ b.day))) := by
  simp [dateLe]

theorem dateLe_trans {a b c : Date} (h1 : dateLe a b = true)
    (h2 : dateLe b c = true) : dateLe a c = true := by
  rw [dateLe_iff] at h1 h2 ⊢
  omega

theorem dedupByAux_sublist {α β : Type} (key : α → β) [DecidableEq β]
    (seen : List β) (l : List α) : (dedupByAux key seen l).Sublist l := by
  induction l generalizing seen with
  | nil => simp [dedupByAux]
  | cons x xs ih =>
    rw [dedupByAux]
    by_cases h : key x ∈ seen
    · simp only [if_pos h]
      exact (ih seen).cons x
    · simp only [if_neg h]
      exact (ih (key x :: seen)).cons₂ x

theorem dedupByAux_not_seen {α β : Type} (key : α → β) [DecidableEq β]
    (seen : List β) (l : List α) :
    ∀ b ∈ dedupByAux key seen l, key b ∉ seen := by
  induction l generalizing seen with
  | nil => simp [dedupByAux]
  | cons x xs ih =>
    rw [dedupByAux]
    by_cases h : key x ∈ seen
    · simpa only [if_pos h] using ih seen
    · simp only [if_neg h]
      intro b hb
      rcases List.mem_cons.mp hb with rfl | hb'
      · exact h
      · intro hs
        exact ih (key x :: seen) b hb' (List.mem_cons_of_mem _ hs)

theorem dedupByAux_keys_nodup {α β : Type} (key : α → β) [DecidableEq β]
    (seen : List β) (l : List α) :
    ((dedupByAux key seen l).map key).Nodup := by
  induction l generalizing seen with
  | nil => simp [dedupByAux]
  | cons x xs ih =>
    rw [dedupByAux]
    by_cases h : key x ∈ seen
    · simpa only [if_pos h] using ih seen
    · simp only [if_neg h, List.map_cons, List.nodup_cons]
      refine ⟨?_, ih (key x :: seen)⟩
      intro hmem
      rcases List.mem_map.mp hmem with ⟨b, hb, hkb⟩
      exact dedupByAux_not_seen key _ xs b hb (hkb ▸ List.mem_cons_self _ _)

theorem dedupByAux_retains {α β : Type} (key : α → β) [DecidableEq β]
    (seen : List β) (l : List α) :
    ∀ a ∈ l, key a ∉ seen → ∃ b ∈ dedupByAux key seen l, key b = key a := by
  induction l generalizing seen with
  | nil => simp
  | cons x xs ih =>
    intro a ha hns
    rw [dedupByAux]
    by_cases h : key x ∈ seen
    · simp only [if_pos h]
      rcases List.mem_cons.mp ha with rfl | ha'
      · exact absurd h hns
      · exact ih seen a ha' hns
    · simp only [if_neg h]
      by_cases hk : key a = key x
      · exact ⟨x, List.mem_cons_self _ _, hk.symm⟩
      · have ha' : a ∈ xs := by
          rcases List.mem_cons.mp ha with he | ha'
          · exact absurd (he ▸ rfl) hk
          · exact ha'
        have hns' : key a ∉ key x :: seen := by
          intro hmem
          rcases List.mem_cons.mp hmem with he | hs2
          · exact hk he
          · exact hns hs2
        rcases ih (key x :: seen) a ha' hns' with ⟨b, hb, hkb⟩
        exact ⟨b, List.mem_cons_of_mem _ hb, hkb⟩

theorem dedupByAux_eq_self {α β : Type} (key : α → β) [DecidableEq β]
    (seen : List β) (l : List α) (hnd : (l.map key).Nodup)
    (hs : ∀ x ∈ l, key x ∉ seen) : dedupByAux key seen l = l := by
  induction l generalizing seen with
  | nil => simp [dedupByAux]
  | cons x xs ih =>
    rw [dedupByAux]
    have hx : key x ∉ seen := hs x (List.mem_cons_self _ _)
    simp only [if_neg hx]
    simp only [List.map_cons, List.nodup_cons] at hnd
    congr 1
    refine ih (key x :: seen) hnd.2 ?_
    intro y hy hmem
    rcases List.mem_cons.mp hmem with he | hsy
    · exact hnd.1 (he ▸ List.mem_map_of_mem key hy)
    · exact hs y (List.mem_cons_of_mem _ hy) hsy

theorem dedupBy_sublist {α β : Type} (key : α → β) [DecidableEq β]
    (l : List α) : (dedupBy key l).Sublist l :=
  dedupByAux_sublist key [] l

theorem dedupBy_keys_nodup {α β : Type} (key : α → β) [DecidableEq β]
    (l : List α) : ((dedupBy key l).map key).Nodup :=
  dedupByAux_keys_nodup key [] l

theorem dedupBy_retains {α β : Type} (key : α → β) [DecidableEq β]
    (l : List α) : ∀ a ∈ l, ∃ b ∈ dedupBy key l, key b = key a :=
  fun a ha => dedupByAux_retains key [] l a ha (by simp)

theorem dedupBy_eq_self {α β : Type} (key : α → β) [DecidableEq β]
    (l : List α) (hnd : (l.map key).Nodup) : dedupBy key l = l :=
  dedupByAux_eq_self key [] l hnd (by simp)

theorem mem_dedupBy_id {α : Type} [DecidableEq α] (l : List α) (a : α) :
    a ∈ dedupBy id l ↔ a ∈ l := by
  constructor
  · intro h
    exact (dedupBy_sublist id l).mem h
  · intro h
    rcases dedupBy_retains id l a h with ⟨b, hb, hkb⟩
    simp only [id] at hkb
    exact hkb ▸ hb

theorem ventaOf_mkVentaExt (v : Venta) (oc : Option Cliente)
    (op : Option Producto) : ventaOf (mkVentaExt v oc op) = v := rfl

theorem filter_key_length_le_one {α β : Type} [DecidableEq β]
    (key : α → β) (l : List α) (k : β) (hnd : (l.map key).Nodup) :
    (l.filter (fun x => decide (key x = k))).length ≤ 1 := by
  induction l with
  | nil => simp
  | cons x xs ih =>
    simp only [List.map_cons, List.nodup_cons] at hnd
    rw [List.filter_cons]
    by_cases hx : key x = k
    · have hd : (decide (key x = k)) = true := by simp [hx]
      have hempty : xs.filter (fun y => decide (key y = k)) = [] := by
        rw [List.filter_eq_nil_iff]
        intro y hy hky
        rw [decide_eq_true_iff] at hky
        exact hnd.1 ((hx ▸ hky : key y = key x) ▸ List.mem_map_of_mem key hy)
      simp [hd, hempty]
    · have hd : (decide (key x = k)) = false := by simp [hx]
      rw [hd]
      simp only [Bool.false_eq_true, if_false]
      exact ih hnd.2

theorem matchClientes_length (cs : List Cliente) (v : Venta)
    (hnd : (cs.map (fun c => c.cliente_id)).Nodup) :
    (matchClientes cs v).length = 1 := by
  unfold matchClientes
  by_cases he : (cs.filter (fun c => decide (c.cliente_id = v.cliente_id))).isEmpty
  · simp [he]
  · simp only [he, Bool.false_eq_true, if_false, List.length_map]
    have h1 : (cs.filter (fun c => decide (c.cliente_id = v.cliente_id))).length ≤ 1 :=
      filter_key_length_le_one (fun c => c.cliente_id) cs v.cliente_id hnd
    have h0 : (cs.filter (fun c => decide (c.cliente_id = v.cliente_id))).length ≠ 0 := by
      intro h
      rw [List.length_eq_zero] at h
      rw [h] at he
      simp at he
    omega

theorem matchProductos_length (ps : List Producto) (v : Venta)
    (hnd : (ps.map (fun p => p.producto_id)).Nodup) :
    (matchProductos ps v).length = 1 := by
  unfold matchProductos
  by_cases he : (ps.filter (fun p => decide (p.producto_id = v.producto_id))).isEmpty
  · simp [he]
  · simp only [he, Bool.false_eq_true, if_false, List.length_map]
    have h1 : (ps.filter (fun p => decide (p.producto_id = v.producto_id))).length ≤ 1 :=
      filter_key_length_le_one (fun p => p.producto_id) ps v.producto_id hnd
    have h0 : (ps.filter (fun p => decide (p.producto_id = v.producto_id))).length ≠ 0 := by
      intro h
      rw [List.length_eq_zero] at h
      rw [h] at he
      simp at he
    omega

theorem enrichRow_map_ventaOf (cs : List Cliente) (ps : List Producto)
    (v : Venta) (hc : (cs.map (fun c => c.cliente_id)).Nodup)
    (hp : (ps.map (fun p => p.producto_id)).Nodup) :
    (enrichRow cs ps v).map ventaOf = [v] := by
  rcases List.length_eq_one.mp (matchClientes_length cs v hc) with ⟨oc, hoc⟩
  rcases List.length_eq_one.mp (matchProductos_length ps v hp) with ⟨op, hop⟩
  simp [enrichRow, hoc, hop, ventaOf_mkVentaExt]

theorem enrich_map_ventaOf (vs : List Venta) (cs : List Cliente)
    (ps : List Producto) (hc : (cs.map (fun c => c.cliente_id)).Nodup)
    (hp : (ps.map (fun p => p.producto_id)).Nodup) :
    (enrich vs cs ps).map ventaOf = vs := by
  induction vs with
  | nil => simp [enrich]
  | cons v vs ih =>
    simp only [enrich, List.flatMap_cons, List.map_append]
    rw [enrichRow_map_ventaOf cs ps v hc hp]
    simpa [enrich] using ih

theorem mem_enrich_shape {e : VentaExt} {vs : List Venta} {cs : List Cliente}
    {ps : List Producto} (h : e ∈ enrich vs cs ps) :
    ∃ v ∈ vs, ∃ oc ∈ matchClientes cs v, ∃ op ∈ matchProductos ps v,
      e = mkVentaExt v oc op := by
  rcases List.mem_flatMap.mp h with ⟨v, hv, he⟩
  rcases List.mem_flatMap.mp he with ⟨oc, hoc, he2⟩
  rcases List.mem_map.mp he2 with ⟨op, hop, he3⟩
  exact ⟨v, hv, oc, hoc, op, hop, he3.symm⟩

theorem matchClientes_of_no_match (cs : List Cliente) (v : Venta)
    (h : ∀ c ∈ cs, ¬c.cliente_id = v.cliente_id) :
    matchClientes cs v = [none] := by
  unfold matchClientes
  have hnil : cs.filter (fun c => decide (c.cliente_id = v.cliente_id)) = [] := by
    rw [List.filter_eq_nil_iff]
    intro c hc
    simpa using h c hc
  simp [hnil]

theorem matchProductos_of_no_match (ps : List Producto) (v : Venta)
    (h : ∀ p ∈ ps, ¬p.producto_id = v.producto_id) :
    matchProductos ps v = [none] := by
  unfold matchProductos
  have hnil : ps.filter (fun p => decide (p.producto_id = v.producto_id)) = [] := by
    rw [List.filter_eq_nil_iff]
    intro p hp
    simpa using h p hp
  simp [hnil]

/-! ## Sum conservation for grouped aggregation -/

theorem filterMap_sum_partition {α : Type} (p : α → Bool)
    (val : α → Option Int) (xs : List α) :
    ((xs.filter p).filterMap val).sum +
        ((xs.filter (fun x => !p x)).filterMap val).sum =
      (xs.filterMap val).sum := by
  induction xs with
  | nil => simp
  | cons x xs ih =>
    by_cases hp : p x = true
    · cases hval : val x <;>
        simp only [List.filter_cons, List.filterMap_cons, hp, hval,
          Bool.not_true, Bool.false_eq_true, if_false, if_pos,
          List.sum_cons] <;>
        omega
    · have hp' : p x = false := by simpa using hp
      cases hval : val x <;>
        simp only [List.filter_cons, List.filterMap_cons, hp', hval,
          Bool.not_false, Bool.false_eq_true, if_false, if_pos,
          List.sum_cons] <;>
        omega

theorem sum_over_groups {α κ : Type} [DecidableEq κ] (key : α → Option κ)
    (val : α → Option Int) :
    ∀ (ks : List κ) (xs : List α), ks.Nodup →
      (∀ x ∈ xs, ∃ k, key x = some k ∧ k ∈ ks) →
      (ks.map (groupSum key val xs)).sum = (xs.filterMap val).sum := by
  intro ks
  induction ks with
  | nil =>
    intro xs _ hcov
    have hx : xs = [] := by
      cases xs with
      | nil => rfl
      | cons x xs =>
        rcases hcov x (List.mem_cons_self _ _) with ⟨k, _, hk⟩
        exact absurd hk (List.not_mem_nil k)
    simp [hx]
  | cons k ks ih =>
    intro xs hnd hcov
    simp only [List.nodup_cons] at hnd
    have hgroups : ∀ k' ∈ ks,
        groupSum key val xs k' =
          groupSum key val (xs.filter (fun x => !decide (key x = some k))) k' := by
      intro k' hk'
      unfold groupSum
      have hfilters :
          xs.filter (fun x => decide (key x = some k')) =
            (xs.filter (fun x => !decide (key x = some k))).filter
              (fun x => decide (key x = some k')) := by
        rw [List.filter_filter]
        apply List.filter_congr
        intro x _
        by_cases hq : key x = some k'
        · have hpx : decide (key x = some k) = false := by
            rw [decide_eq_false_iff_not]
            intro he
            rw [hq] at he
            exact hnd.1 (Option.some_inj.mp he ▸ hk')
          rw [hpx]
          simp
        · simp [hq]
      rw [hfilters]
    have hcov' : ∀ x ∈ xs.filter (fun x => !decide (key x = some k)),
        ∃ k', key x = some k' ∧ k' ∈ ks := by
      intro x hx
      rcases List.mem_filter.mp hx with ⟨hxm, hnp⟩
      rcases hcov x hxm with ⟨k'', hk'', hmem⟩
      rcases List.mem_cons.mp hmem with he | hks
      · exfalso
        rw [Bool.not_eq_true', decide_eq_false_iff_not] at hnp
        exact hnp (he ▸ hk'')
      · exact ⟨k'', hk'', hks⟩
    have hmap : (ks.map (groupSum key val xs)).sum =
        (ks.map (groupSum key val
          (xs.filter (fun x => !decide (key x = some k))))).sum := by
      congr 1
      exact List.map_congr_left hgroups
    rw [List.map_cons, List.sum_cons, hmap, ih _ hnd.2 hcov']
    exact filterMap_sum_partition (fun x => decide (key x = some k)) val xs

theorem groupbySum_conservation {α κ : Type} [DecidableEq κ]
    (key : α → Option κ) (val : α → Option Int) (xs : List α)
    (hall : ∀ x ∈ xs, (key x).isSome) :
    ((groupKeys key xs).map (groupSum key val xs)).sum =
      (xs.filterMap val).sum := by
  apply sum_over_groups
  · have h := dedupBy_keys_nodup id (xs.filterMap key)
    simpa using h
  · intro x hx
    rcases Option.isSome_iff_exists.mp (hall x hx) with ⟨k, hk⟩
    refine ⟨k, hk, ?_⟩
    rw [groupKeys, mem_dedupBy_id]
    exact List.mem_filterMap.mpr ⟨x, hx, hk⟩

/-! ## Lexicographic order of month buckets -/

theorem digitChar_lt_of_lt :
    ∀ a, a < 10 → ∀ b, b < 10 →
      ((Nat.digitChar a < Nat.digitChar b) ↔ a < b) := by decide

theorem digitChar_eq_of_eq :
    ∀ a, a < 10 → ∀ b, b < 10 →
      ((Nat.digitChar a = Nat.digitChar b) ↔ a = b) := by decide

theorem digitChar_mod_lt_iff (a b : Nat) :
    (Nat.digitChar (a % 10) < Nat.digitChar (b % 10)) ↔ a % 10 < b % 10 :=
  digitChar_lt_of_lt (a % 10) (Nat.mod_lt a (by norm_num)) (b % 10)
    (Nat.mod_lt b (by norm_num))

theorem digitChar_mod_eq_iff (a b : Nat) :
    (Nat.digitChar (a % 10) = Nat.digitChar (b % 10)) ↔ a % 10 = b % 10 :=
  digitChar_eq_of_eq (a % 10) (Nat.mod_lt a (by norm_num)) (b % 10)
    (Nat.mod_lt b (by norm_num))

theorem charLex_cons_iff {a b : Char} {as bs : List Char} :
    List.Lex (· < ·) (a :: as) (b :: bs) ↔
      a < b ∨ (a = b ∧ List.Lex (· < ·) as bs) := by
  constructor
  · intro h
    cases h with
    | cons h => exact Or.inr ⟨rfl, h⟩
    | rel h => exact Or.inl h
  · intro h
    rcases h with h | ⟨rfl, h⟩
    · exact List.Lex.rel h
    · exact List.Lex.cons h

theorem charLex_nil_iff : List.Lex (· < ·) ([] : List Char) [] ↔ False :=
  ⟨fun h => List.Lex.not_nil_right _ _ h, False.elim⟩

/-- The "YYYY-MM" buckets of pandas-representable dates compare
lexicographically exactly as their (year, month) pairs compare
chronologically. -/

theorem mesOf_lt_iff (d1 d2 : Date) (hy1 : d1.year ≤ 9999)
    (hy2 : d2.year ≤ 9999) (hm1 : d1.month ≤ 99) (hm2 : d2.month ≤ 99) :
    (mesOf d1 < mesOf d2 ↔
      (d1.year < d2.year ∨ (d1.year = d2.year ∧ d1.month < d2.month))) := by
  rw [mesOf, mesOf, String.lt_iff_toList_lt]
  have hbridge :
      ((⟨pad4 d1.year ++ '-' :: pad2 d1.month⟩ : String).toList <
          (⟨pad4 d2.year ++ '-' :: pad2 d2.month⟩ : String).toList) ↔
        List.Lex (· < ·) (pad4 d1.year ++ '-' :: pad2 d1.month)
          (pad4 d2.year ++ '-' :: pad2 d2.month) := Iff.rfl
  rw [hbridge]
  have hdash : ¬ ('-' : Char) < '-' := by decide
  simp only [pad4, pad2, List.cons_append, List.nil_append, charLex_cons_iff,
    charLex_nil_iff, digitChar_mod_lt_iff, digitChar_mod_eq_iff, hdash,
    false_or, true_and, eq_self_iff_true, or_false, and_false, false_and]
  have e1 : d1.year = 1000 * (d1.year / 1000 % 10) + 100 * (d1.year / 100 % 10) +
      10 * (d1.year / 10 % 10) + d1.year % 10 := by omega
  have e2 : d2.year = 1000 * (d2.year / 1000 % 10) + 100 * (d2.year / 100 % 10) +
      10 * (d2.year / 10 % 10) + d2.year % 10 := by omega
  have e3 : d1.month = 10 * (d1.month / 10 % 10) + d1.month % 10 := by omega
  have e4 : d2.month = 10 * (d2.month / 10 % 10) + d2.month % 10 := by omega
  obtain ⟨a3, ha3⟩ : ∃ x, d1.year / 1000 % 10 = x := ⟨_, rfl⟩
  obtain ⟨a2, ha2⟩ : ∃ x, d1.year / 100 % 10 = x := ⟨_, rfl⟩
  obtain ⟨a1, ha1⟩ : ∃ x, d1.year / 10 % 10 = x := ⟨_, rfl⟩
  obtain ⟨a0, ha0⟩ : ∃ x, d1.year % 10 = x := ⟨_, rfl⟩
  obtain ⟨b3, hb3⟩ : ∃ x, d2.year / 1000 % 10 = x := ⟨_, rfl⟩
  obtain ⟨b2, hb2⟩ : ∃ x, d2.year / 100 % 10 = x := ⟨_, rfl⟩
  obtain ⟨b1, hb1⟩ : ∃ x, d2.year / 10 % 10 = x := ⟨_, rfl⟩
  obtain ⟨b0, hb0⟩ : ∃ x, d2.year % 10 = x := ⟨_, rfl⟩
  obtain ⟨c1, hc1⟩ : ∃ x, d1.month / 10 % 10 = x := ⟨_, rfl⟩
  obtain ⟨c0, hc0⟩ : ∃ x, d1.month % 10 = x := ⟨_, rfl⟩
  obtain ⟨f1, hf1⟩ : ∃ x, d2.month / 10 % 10 = x := ⟨_, rfl⟩
  obtain ⟨f0, hf0⟩ : ∃ x, d2.month % 10 = x := ⟨_, rfl⟩
  have bnd : a3 < 10 ∧ a2 < 10 ∧ a1 < 10 ∧ a0 < 10 ∧ b3 < 10 ∧ b2 < 10 ∧
      b1 < 10 ∧ b0 < 10 ∧ c1 < 10 ∧ c0 < 10 ∧ f1 < 10 ∧ f0 < 10 := by
    refine ⟨ha3 ▸ ?_, ha2 ▸ ?_, ha1 ▸ ?_, ha0 ▸ ?_, hb3 ▸ ?_, hb2 ▸ ?_,
      hb1 ▸ ?_, hb0 ▸ ?_, hc1 ▸ ?_, hc0 ▸ ?_, hf1 ▸ ?_, hf0 ▸ ?_⟩ <;>
      exact Nat.mod_lt _ (by norm_num)
  rw [ha3, ha2, ha1, ha0] at e1 ⊢
  rw [hb3, hb2, hb1, hb0] at e2 ⊢
  rw [hc1, hc0] at e3 ⊢
  rw [hf1, hf0] at e4 ⊢
  clear ha3 ha2 ha1 ha0 hb3 hb2 hb1 hb0 hc1 hc0 hf1 hf0
  omega

/-! ## Cleaning helper lemmas -/

theorem cleanClientes_sublist (cs : List Cliente) :
    (cleanClientes cs).Sublist cs :=
  (List.filter_sublist _).trans (dedupBy_sublist _ cs)

theorem cleanProductos_sublist (ps : List Producto) :
    (cleanProductos ps).Sublist ps :=
  (List.filter_sublist _).trans (dedupBy_sublist _ ps)

theorem cleanClientes_keys_nodup (cs : List Cliente) :
    ((cleanClientes cs).map (fun c => c.cliente_id)).Nodup :=
  List.Nodup.sublist (List.Sublist.map _ (List.filter_sublist _))
    (dedupBy_keys_nodup _ cs)

theorem cleanProductos_keys_nodup (ps : List Producto) :
    ((cleanProductos ps).map (fun p => p.producto_id)).Nodup :=
  List.Nodup.sublist (List.Sublist.map _ (List.filter_sublist _))
    (dedupBy_keys_nodup _ ps)

theorem cleanClientes_mem_isSome (cs : List Cliente) :
    ∀ c ∈ cleanClientes cs, c.cliente_id.isSome := by
  intro c hc
  exact (List.mem_filter.mp hc).2

theorem cleanProductos_mem_isSome (ps : List Producto) :
    ∀ p ∈ cleanProductos ps, p.producto_id.isSome := by
  intro p hp
  exact (List.mem_filter.mp hp).2

theorem cleanClientes_retains (cs : List Cliente) :
    ∀ c ∈ cs, c.cliente_id.isSome = true →
      ∃ c' ∈ cleanClientes cs, c'.cliente_id = c.cliente_id := by
  intro c hc hsome
  rcases dedupBy_retains (fun c => c.cliente_id) cs c hc with ⟨b, hb, hkb⟩
  refine ⟨b, List.mem_filter.mpr ⟨hb, ?_⟩, hkb⟩
  rw [hkb]
  exact hsome

theorem cleanProductos_retains (ps : List Producto) :
    ∀ p ∈ ps, p.producto_id.isSome = true →
      ∃ p' ∈ cleanProductos ps, p'.producto_id = p.producto_id := by
  intro p hp hsome
  rcases dedupBy_retains (fun p => p.producto_id) ps p hp with ⟨b, hb, hkb⟩
  refine ⟨b, List.mem_filter.mpr ⟨hb, ?_⟩, hkb⟩
  rw [hkb]
  exact hsome

theorem dedupByAux_keeps_first {α β : Type} (key : α → β) [DecidableEq β] :
    ∀ (seen : List β) (l : List α) (a : α), a ∈ l → key a ∉ seen →
      ∀ b, l.find? (fun x => decide (key x = key a)) = some b →
        b ∈ dedupByAux key seen l := by
  intro seen l
  induction l generalizing seen with
  | nil => simp
  | cons x xs ih =>
    intro a ha hns b hf
    rw [dedupByAux]
    by_cases hx : key x = key a
    · rw [List.find?_cons_of_pos _ (by simp [hx])] at hf
      rcases Option.some_inj.mp hf with rfl
      have hseen : key x ∉ seen := fun hmem => hns (hx ▸ hmem)
      simp only [if_neg hseen]
      exact List.mem_cons_self _ _
    · rw [List.find?_cons_of_neg _ (by simp [hx])] at hf
      have ha' : a ∈ xs := by
        rcases List.mem_cons.mp ha with he | h
        · exact absurd (he ▸ rfl) hx
        · exact h
      by_cases hseen : key x ∈ seen
      · simp only [if_pos hseen]
        exact ih seen a ha' hns b hf
      · simp only [if_neg hseen]
        refine List.mem_cons_of_mem _ (ih (key x :: seen) a ha' ?_ b hf)
        intro hmem
        rcases List.mem_cons.mp hmem with he | hs
        · exact hx he.symm
        · exact hns hs

theorem dedupBy_keeps_first {α β : Type} (key : α → β) [DecidableEq β]
    (l : List α) (a : α) (ha : a ∈ l) (b : α)
    (hf : l.find? (fun x => decide (key x = key a)) = some b) :
    b ∈ dedupBy key l :=
  dedupByAux_keeps_first key [] l a ha (by simp) b hf

theorem cleanClientes_keeps_first (cs : List Cliente) :
    ∀ c ∈ cs, c.cliente_id.isSome = true →
      ∃ c' ∈ cleanClientes cs,
        cs.find? (fun x => decide (x.cliente_id = c.cliente_id)) = some c' ∧
          c'.cliente_id = c.cliente_id := by
  intro c hc hsome
  cases hf : cs.find? (fun x => decide (x.cliente_id = c.cliente_id)) with
  | none =>
    rw [List.find?_eq_none] at hf
    exact absurd (by simp) (hf c hc)
  | some c' =>
    have hkey : c'.cliente_id = c.cliente_id := by
      have h := List.find?_some hf
      simpa using h
    have hmem : c' ∈ dedupBy (fun x => x.cliente_id) cs :=
      dedupBy_keeps_first (fun x => x.cliente_id) cs c hc c' hf
    refine ⟨c', List.mem_filter.mpr ⟨hmem, ?_⟩, rfl, hkey⟩
    rw [hkey]
    exact hsome

theorem cleanProductos_keeps_first (ps : List Producto) :
    ∀ p ∈ ps, p.producto_id.isSome = true →
      ∃ p' ∈ cleanProductos ps,
        ps.find? (fun x => decide (x.producto_id = p.producto_id)) = some p' ∧
          p'.producto_id = p.producto_id := by
  intro p hp hsome
  cases hf : ps.find? (fun x => decide (x.producto_id = p.producto_id)) with
  | none =>
    rw [List.find?_eq_none] at hf
    exact absurd (by simp) (hf p hp)
  | some p' =>
    have hkey : p'.producto_id = p.producto_id := by
      have h := List.find?_some hf
      simpa using h
    have hmem : p' ∈ dedupBy (fun x => x.producto_id) ps :=
      dedupBy_keeps_first (fun x => x.producto_id) ps p hp p' hf
    refine ⟨p', List.mem_filter.mpr ⟨hmem, ?_⟩, rfl, hkey⟩
    rw [hkey]
    exact hsome

theorem cleanClientes_idem (cs : List Cliente) :
    cleanClientes (cleanClientes cs) = cleanClientes cs := by
  have h1 : dedupBy (fun c => c.cliente_id) (cleanClientes cs) =
      cleanClientes cs :=
    dedupBy_eq_self _ _ (cleanClientes_keys_nodup cs)
  show (dedupBy (fun c => c.cliente_id) (cleanClientes cs)).filter _ = _
  rw [h1]
  rw [List.filter_eq_self]
  intro c hc
  exact cleanClientes_mem_isSome cs c hc

theorem cleanProductos_idem (ps : List Producto) :
    cleanProductos (cleanProductos ps) = cleanProductos ps := by
  have h1 : dedupBy (fun p => p.producto_id) (cleanProductos ps) =
      cleanProductos ps :=
    dedupBy_eq_self _ _ (cleanProductos_keys_nodup ps)
  show (dedupBy (fun p => p.producto_id) (cleanProductos ps)).filter _ = _
  rw [h1]
  rw [List.filter_eq_self]
  intro p hp
  exact cleanProductos_mem_isSome ps p hp

theorem cleanVentas_idem (vs : List Venta) :
    cleanVentas (cleanVentas vs) = cleanVentas vs := by
  rw [cleanVentas, List.filter_eq_self]
  intro v hv
  exact (List.mem_filter.mp hv).2

theorem cleanCartera_idem (rs : List Cartera) :
    cleanCartera (cleanCartera rs) = cleanCartera rs := by
  rw [cleanCartera, List.filter_eq_self]
  intro r hr
  exact (List.mem_filter.mp hr).2

/-! ## Claims -/

/-- Claim C1: for every cleaned Sale, Customer and Product input — any
dimension tables with (post-cleaning) unique keys, including Sale rows whose
`cliente_id` or `producto_id` is absent from the dimensions — the two left
joins return exactly the input sale rows in order (no row dropped or
duplicated, so the row count matches), and unmatched dimension keys yield
null joined attributes. -/
theorem enrich_preserves_sale_rows (vs : List Venta) (cs : List Cliente)
    (ps : List Producto) (hc : (cs.map (fun c => c.cliente_id)).Nodup)
    (hp : (ps.map (fun p => p.producto_id)).Nodup) :
    (enrich vs cs ps).map ventaOf = vs ∧
      ∀ e ∈ enrich vs cs ps,
        ((∀ c ∈ cs, ¬c.cliente_id = e.cliente_id) →
          e.nombre_cliente = none ∧ e.segmento = none ∧ e.region = none ∧
            e.ciudad = none) ∧
        ((∀ p ∈ ps, ¬p.producto_id = e.producto_id) →
          e.sku = none ∧ e.categoria = none ∧ e.subcategoria = none ∧
            e.marca = none ∧ e.descripcion = none) := by
  refine ⟨enrich_map_ventaOf vs cs ps hc hp, ?_⟩
  intro e he
  rcases mem_enrich_shape he with ⟨v, _, oc, hoc, op, hop, rfl⟩
  constructor
  · intro hno
    have hno' : ∀ c ∈ cs, ¬c.cliente_id = v.cliente_id := fun c hcm => hno c hcm
    rw [matchClientes_of_no_match cs v hno'] at hoc
    rcases List.mem_singleton.mp hoc with rfl
    exact ⟨rfl, rfl, rfl, rfl⟩
  · intro hno
    have hno' : ∀ p ∈ ps, ¬p.producto_id = v.producto_id := fun p hpm => hno p hpm
    rw [matchProductos_of_no_match ps v hno'] at hop
    rcases List.mem_singleton.mp hop with rfl
    exact ⟨rfl, rfl, rfl, rfl, rfl⟩

/-- Witness for C1 at a concrete input whose sale references a customer id
absent from the customer table. -/
theorem enrich_preserves_sale_rows_witness :
    (enrich [vSale] [cOther] [pMatch]).map ventaOf = [vSale] :=
  (enrich_preserves_sale_rows [vSale] [cOther] [pMatch] (by decide)
    (by decide)).1

/-- Claim C2: the filter returns a subset of the rows in original order with
all columns, every returned row satisfies the mask (dates inclusive on both
ends, region and segment constraints applied unless the sentinel is
selected), and the identity spec — a date range covering every row, both
selectors at the sentinel — returns the whole table. -/
theorem filtrar_spec (ds hs : Date) (rSel sSel : String)
    (vs : List VentaExt) :
    (filtrar ds hs rSel sSel vs).Sublist vs ∧
      (∀ v ∈ filtrar ds hs rSel sSel vs, maskRow ds hs rSel sSel v = true) ∧
      (rSel = "Todos" → sSel = "Todos" →
        (∀ v ∈ vs, maskFecha ds hs v = true) →
        filtrar ds hs rSel sSel vs = vs) := by
  refine ⟨List.filter_sublist _, ?_, ?_⟩
  · intro v hv
    exact (List.mem_filter.mp hv).2
  · intro hr hsen hall
    rw [filtrar, List.filter_eq_self]
    intro v hv
    simp [maskRow, hr, hsen, hall v hv]

/-- Witness for C2: the identity spec on a one-row table returns the table. -/
theorem filtrar_spec_witness :
    filtrar ⟨2024, 1, 1⟩ ⟨2024, 12, 31⟩ "Todos" "Todos" [eSale] = [eSale] :=
  (filtrar_spec ⟨2024, 1, 1⟩ ⟨2024, 12, 31⟩ "Todos" "Todos" [eSale]).2.2 rfl
    rfl (by decide)

/-- Counterexample to C3: a sale table with the same fully-keyed row twice is
returned unchanged by cleaning — the duplicate on the key-column set
(`venta_id`, `fecha`, `cliente_id`, `producto_id`) is NOT dropped, contrary
to the claim that cleaning keeps only the first occurrence. -/
theorem clean_dedups_all_tables_counterexample :
    cleanVentas [vSale, vSale] = [vSale, vSale] ∧
      cleanVentas [vSale, vSale] ≠ [vSale] := by decide

/-- Claim C3 (amended): cleaning drops every row with a null in any key
column for all four tables, and deduplicates on the key — keeping the first
occurrence, in input order — only for Customer and Product; Sale and
ReceivableDocument rows are kept in order with duplicates retained.  For
Customer/Product the kept representative of each non-null key is pinned to
the FIRST input row with that key (the `find?` result), the keys of the
output are unique and non-null, and the output is an order-preserving
sublist of the input. -/
theorem clean_null_keys_dedup_dims_only (cs : List Cliente)
    (ps : List Producto) (vs : List Venta) (rs : List Cartera) :
    ((cleanClientes cs).Sublist cs ∧
      (∀ c ∈ cleanClientes cs, c.cliente_id.isSome) ∧
      ((cleanClientes cs).map (fun c => c.cliente_id)).Nodup ∧
      (∀ c ∈ cs, c.cliente_id.isSome = true →
        ∃ c' ∈ cleanClientes cs,
          cs.find? (fun x => decide (x.cliente_id = c.cliente_id)) =
              some c' ∧
            c'.cliente_id = c.cliente_id)) ∧
    ((cleanProductos ps).Sublist ps ∧
      (∀ p ∈ cleanProductos ps, p.producto_id.isSome) ∧
      ((cleanProductos ps).map (fun p => p.producto_id)).Nodup ∧
      (∀ p ∈ ps, p.producto_id.isSome = true →
        ∃ p' ∈ cleanProductos ps,
          ps.find? (fun x => decide (x.producto_id = p.producto_id)) =
              some p' ∧
            p'.producto_id = p.producto_id)) ∧
    ((cleanVentas vs).Sublist vs ∧
      (∀ v ∈ cleanVentas vs, ventaKeyOk v = true) ∧
      (∀ v : Venta, ventaKeyOk v = true →
        (cleanVentas vs).count v = vs.count v)) ∧
    ((cleanCartera rs).Sublist rs ∧
      (∀ r ∈ cleanCartera rs, carteraKeyOk r = true) ∧
      (∀ r : Cartera, carteraKeyOk r = true →
        (cleanCartera rs).count r = rs.count r)) := by
  refine ⟨⟨cleanClientes_sublist cs, cleanClientes_mem_isSome cs,
      cleanClientes_keys_nodup cs, cleanClientes_keeps_first cs⟩,
    ⟨cleanProductos_sublist ps, cleanProductos_mem_isSome ps,
      cleanProductos_keys_nodup ps, cleanProductos_keeps_first ps⟩,
    ⟨List.filter_sublist _, ?_, ?_⟩, ⟨List.filter_sublist _, ?_, ?_⟩⟩
  · intro v hv
    exact (List.mem_filter.mp hv).2
  · intro v hok
    exact List.count_filter hok
  · intro r hr
    exact (List.mem_filter.mp hr).2
  · intro r hok
    exact List.count_filter hok

/-- Witness for the amended C3: a fully-keyed duplicated sale row keeps its
multiplicity through cleaning. -/
theorem clean_null_keys_dedup_dims_only_witness :
    ventaKeyOk vSale = true ∧
      (cleanVentas [vSale, vSale]).count vSale = [vSale, vSale].count vSale :=
  ⟨by decide,
    (clean_null_keys_dedup_dims_only [] [] [vSale, vSale] []).2.2.1.2.2 vSale
      (by decide)⟩

/-- Claim C9: cleaning each of the four tables is idempotent. -/
theorem clean_idempotent (cs : List Cliente) (ps : List Producto)
    (vs : List Venta) (rs : List Cartera) :
    cleanClientes (cleanClientes cs) = cleanClientes cs ∧
      cleanProductos (cleanProductos ps) = cleanProductos ps ∧
      cleanVentas (cleanVentas vs) = cleanVentas vs ∧
      cleanCartera (cleanCartera rs) = cleanCartera rs :=
  ⟨cleanClientes_idem cs, cleanProductos_idem ps, cleanVentas_idem vs,
    cleanCartera_idem rs⟩

/-- Claim C4: the monthly series' subtotal column sums to the scalar KPI
total subtotal of the same filtered table, for every filter spec, whenever
every row carries a month bucket (as every enriched row of a cleaned sale
table does). -/
theorem monthly_series_sum_conservation (vs : List VentaExt) (ds hs : Date)
    (rSel sSel : String) (hmes : ∀ v ∈ vs, v.mes.isSome) :
    ((ventasMes (filtrar ds hs rSel sSel vs)).map (fun r => r.2.1)).sum =
      kpiTotalVentas (filtrar ds hs rSel sSel vs) := by
  have hmesF : ∀ v ∈ filtrar ds hs rSel sSel vs, v.mes.isSome :=
    fun v hv => hmes v (List.mem_of_mem_filter hv)
  have h1 : (ventasMes (filtrar ds hs rSel sSel vs)).map (fun r => r.2.1) =
      (List.insertionSort (fun a b => a ≤ b)
        (groupKeys (fun v => v.mes) (filtrar ds hs rSel sSel vs))).map
          (groupSum (fun v => v.mes) (fun v => v.subtotal_cop)
            (filtrar ds hs rSel sSel vs)) := by
    rw [ventasMes, List.map_map]
    rfl
  rw [h1]
  have h2 := (List.perm_insertionSort (fun a b : String => a ≤ b)
    (groupKeys (fun v => v.mes) (filtrar ds hs rSel sSel vs))).map
      (groupSum (fun v => v.mes) (fun v => v.subtotal_cop)
        (filtrar ds hs rSel sSel vs))
  rw [h2.sum_eq]
  exact groupbySum_conservation _ _ _ hmesF

/-- Witness for C4 on a one-row table. -/
theorem monthly_series_sum_conservation_witness :
    ((ventasMes (filtrar ⟨2024, 1, 1⟩ ⟨2024, 12, 31⟩ "Todos" "Todos"
        [eSale])).map (fun r => r.2.1)).sum =
      kpiTotalVentas (filtrar ⟨2024, 1, 1⟩ ⟨2024, 12, 31⟩ "Todos" "Todos"
        [eSale]) :=
  monthly_series_sum_conservation [eSale] ⟨2024, 1, 1⟩ ⟨2024, 12, 31⟩
    "Todos" "Todos" (by decide)

/-- Claim C5: the receivables KPIs (sum of `saldo_cop` over status "Vigente"
and over status "En mora") are computed on the whole receivables table and
are therefore identical under any two filter specs. -/
theorem cartera_kpis_filter_independent (ventasExt : List VentaExt)
    (cartera : List Cartera) (ds1 hs1 : Date) (r1 s1 : String)
    (ds2 hs2 : Date) (r2 s2 : String) :
    (dashboardKPIs ventasExt cartera ds1 hs1 r1 s1).carteraVigente =
        (dashboardKPIs ventasExt cartera ds2 hs2 r2 s2).carteraVigente ∧
      (dashboardKPIs ventasExt cartera ds1 hs1 r1 s1).carteraMora =
        (dashboardKPIs ventasExt cartera ds2 hs2 r2 s2).carteraMora :=
  ⟨rfl, rfl⟩

/-- Claim C6: an inverted date range, or a region or segment value not
present in the data, yields an empty filtered table rather than an error,
and the downstream aggregates are total on empty input, returning empty
tables and zero totals. -/
theorem filtrar_edge_cases (ds hs : Date) (rSel sSel : String)
    (vs : List VentaExt) :
    (dateLe ds hs = false → filtrar ds hs rSel sSel vs = []) ∧
      (rSel ≠ "Todos" → (∀ v ∈ vs, ¬v.region = some rSel) →
        filtrar ds hs rSel sSel vs = []) ∧
      (sSel ≠ "Todos" → (∀ v ∈ vs, ¬v.segmento = some sSel) →
        filtrar ds hs rSel sSel vs = []) ∧
      (ventasMes ([] : List VentaExt) = [] ∧
        ventasRegion ([] : List VentaExt) = [] ∧
        ventasCiudad ([] : List VentaExt) = [] ∧
        topClientes ([] : List VentaExt) = [] ∧
        topProductos ([] : List VentaExt) = [] ∧
        kpiTotalVentas ([] : List VentaExt) = 0 ∧
        kpiMargenTotal ([] : List VentaExt) = 0 ∧
        kpiUnidades ([] : List VentaExt) = 0) := by
  refine ⟨?_, ?_, ?_, rfl, rfl, rfl, rfl, rfl, rfl, rfl, rfl⟩
  · intro hlt
    rw [filtrar, List.filter_eq_nil_iff]
    intro v _
    rw [Bool.not_eq_true]
    have hf : maskFecha ds hs v = false := by
      unfold maskFecha
      cases hv : v.fecha with
      | none => rfl
      | some d =>
        cases h1 : dateLe ds d with
        | false => simp [h1]
        | true =>
          cases h2 : dateLe d hs with
          | false => simp [h2]
          | true =>
            have h3 := dateLe_trans h1 h2
            rw [hlt] at h3
            exact absurd h3 (by simp)
    simp [maskRow, hf]
  · intro hr hall
    rw [filtrar, List.filter_eq_nil_iff]
    intro v hv
    simp [maskRow, hr, hall v hv]
  · intro hsen hall
    rw [filtrar, List.filter_eq_nil_iff]
    intro v hv
    simp [maskRow, hsen, hall v hv]

/-- Witness for C6: an inverted date range empties a nonempty table. -/
theorem filtrar_edge_cases_witness :
    filtrar ⟨2024, 5, 1⟩ ⟨2024, 1, 1⟩ "Todos" "Todos" [eSale] = [] :=
  (filtrar_edge_cases ⟨2024, 5, 1⟩ ⟨2024, 1, 1⟩ "Todos" "Todos" [eSale]).1
    (by decide)

/-- Claim C7: the top-customers and top-products aggregates return at most
15 rows, in non-increasing order of the summed `subtotal_cop`. -/
theorem top_n_truncated_and_sorted (vs : List VentaExt) :
    ((topClientes vs).length ≤ 15 ∧
      ((topClientes vs).map (fun r => r.2)).Pairwise (· ≥ ·)) ∧
    ((topProductos vs).length ≤ 15 ∧
      ((topProductos vs).map (fun r => r.2)).Pairwise (· ≥ ·)) := by
  have key : ∀ (κ : Type) (n : Nat) (xs : List (κ × Int)),
      (topNBy n xs).length ≤ n ∧
        ((topNBy n xs).map (fun r => r.2)).Pairwise (· ≥ ·) := by
    intro κ n xs
    constructor
    · exact List.length_take_le n _
    · have hs : (List.insertionSort ordDesc xs).Pairwise ordDesc :=
        List.sorted_insertionSort ordDesc xs
      have ht : (topNBy n xs).Pairwise ordDesc :=
        List.Pairwise.sublist (List.take_sublist n _) hs
      rw [List.pairwise_map]
      exact ht
  exact ⟨key _ 15 _, key _ 15 _⟩

/-- Claim C8: every enriched row's `mes` field is the "YYYY-MM" bucket of its
sale date, and for pandas-representable dates the buckets' lexicographic
string order coincides with the chronological order of the calendar months,
so sorting the monthly series by `mes` sorts it chronologically. -/
theorem mes_bucket_lex_chronological (vs : List Venta) (cs : List Cliente)
    (ps : List Producto) (d1 d2 : Date) (hy1 : d1.year ≤ 9999)
    (hy2 : d2.year ≤ 9999) (hm1 : d1.month ≤ 99) (hm2 : d2.month ≤ 99) :
    (∀ e ∈ enrich vs cs ps, ∀ d, e.fecha = some d →
      e.mes = some (mesOf d)) ∧
      (mesOf d1 < mesOf d2 ↔
        (d1.year < d2.year ∨ (d1.year = d2.year ∧ d1.month < d2.month))) := by
  constructor
  · intro e he d hd
    rcases mem_enrich_shape he with ⟨v, _, oc, _, op, _, rfl⟩
    have hfe : v.fecha = some d := hd
    show v.fecha.map mesOf = some (mesOf d)
    rw [hfe]
    rfl
  · exact mesOf_lt_iff d1 d2 hy1 hy2 hm1 hm2

/-- Witness for C8: March 2024 sorts strictly before November 2024. -/
theorem mes_bucket_lex_chronological_witness :
    mesOf ⟨2024, 3, 1⟩ < mesOf ⟨2024, 11, 5⟩ :=
  (mes_bucket_lex_chronological [] [] [] ⟨2024, 3, 1⟩ ⟨2024, 11, 5⟩
    (by norm_num) (by norm_num) (by norm_num) (by norm_num)).2.mpr
    (Or.inr ⟨rfl, by norm_num⟩)

/-- Claim C10: selecting the literal string "Todos" as region and segment
never constrains those dimensions — every row inside the date range is kept
whatever its region or segment, because "Todos" is the sentinel meaning
no constraint (so rows of every region appear, not only rows whose region is
literally "Todos"). -/
theorem todos_sentinel_no_constraint (ds hs : Date) (vs : List VentaExt)
    (v : VentaExt) (hv : v ∈ vs) (hd : maskFecha ds hs v = true) :
    v ∈ filtrar ds hs "Todos" "Todos" vs := by
  rw [filtrar, List.mem_filter]
  refine ⟨hv, ?_⟩
  simp [maskRow, hd]

/-- Witness for C10: with a table containing a region literally named
"Todos" and a region "Norte", selecting "Todos" keeps the "Norte" row. -/
theorem todos_sentinel_no_constraint_witness :
    eNorte ∈ filtrar ⟨2024, 1, 1⟩ ⟨2024, 12, 31⟩ "Todos" "Todos"
      [eTodos, eNorte] :=
  todos_sentinel_no_constraint ⟨2024, 1, 1⟩ ⟨2024, 12, 31⟩ [eTodos, eNorte]
    eNorte (by decide) (by decide)

end AppBI

